/-
Verification of the metiger-bot core (src/metiger_bot.py): an in-memory
TTL cache guarding one upstream HTTP call, pure string-formatting helpers,
and a stateless button dispatcher.  The Python source is shallowly embedded
below: dictionaries become association lists, `time.time()` becomes an
explicit rational `now` parameter, and the network interaction becomes an
explicit `Upstream` oracle describing what the single HTTP request would
yield.  Python numbers are modelled as rationals.
-/
import Mathlib

set_option maxRecDepth 4000

/-- One element of the CoinGecko markets response, as consumed by the bot:
`symbol`, `current_price`, optional `price_change_percentage_24h`,
optional `market_cap`. -/
structure Coin where
  symbol : String
  current_price : ℚ
  price_change_percentage_24h : Option ℚ
  market_cap : Option ℚ
deriving DecidableEq, Repr

/-- Lookup in a Python dict modelled as an association list (`d.get(k)` /
`k in d` / `d[k]`). -/
def dictGet {α : Type} (d : List (String × α)) (k : String) : Option α :=
  match d with
  | [] => none
  | (k0, v0) :: rest => if k0 = k then some v0 else dictGet rest k

/-- Assignment `d[k] = v` on a Python dict modelled as an association list. -/
def dictSet {α : Type} (d : List (String × α)) (k : String) (v : α) : List (String × α) :=
  match d with
  | [] => [(k, v)]
  | (k0, v0) :: rest => if k0 = k then (k0, v) :: rest else (k0, v0) :: dictSet rest k v

/-- The two module-level dicts `cache` and `cache_time` of metiger_bot.py. -/
structure BotState where
  cache : List (String × List Coin)
  cache_time : List (String × ℚ)
deriving DecidableEq, Repr

/-- The state at interpreter start: both dicts empty. -/
def emptyState : BotState := { cache := [], cache_time := [] }

/-- Embedding of `get_cached(key, ttl=60)`: returns `cache[key]` when the key
is present and `now - cache_time.get(key, 0) < ttl`, else `None`. -/
def get_cached (st : BotState) (now : ℚ) (key : String) (ttl : ℚ := 60) : Option (List Coin) :=
  match dictGet st.cache key with
  | some v => if now - (dictGet st.cache_time key).getD 0 < ttl then some v else none
  | none => none

/-- Embedding of `set_cache(key, value)`: writes the value and the current
timestamp. -/
def set_cache (st : BotState) (now : ℚ) (key : String) (value : List Coin) : BotState :=
  { cache := dictSet st.cache key value
    cache_time := dictSet st.cache_time key now }

/-- Two-digit zero-padded rendering of a number below 100, the fractional
part of a `%.2f` format. -/
def pad2 (n : Nat) : String :=
  if n < 10 then "0" ++ toString n else toString n

/-- Cent value of `|q| / d`: `⌊(|q| / d) * 100 + 1/2⌋` computed on the raw
fraction `q.num.natAbs / (q.den * d)` by natural division, since
`⌊(a / b) * 100 + 1/2⌋ = (200 * a + b) / (2 * b)` for any (not necessarily
reduced) representation `a / b` with `b > 0`.  This is the 2-decimal
rounding performed by Python's `:.2f` format (half-up at exact ties;
every value formatted in this development is exact at two decimals,
where all rounding modes agree). -/
def cents (q : ℚ) (d : Nat) : Nat :=
  (200 * q.num.natAbs + q.den * d) / (2 * (q.den * d))

/-- Embedding of Python `f-string` formatting `:.2f` applied to `q / d` (the
`money` branches format `n / 1_000`, `n / 1_000_000`, `n / 1_000_000_000`):
sign, integer part, dot, two fractional digits. -/
def fmtDiv (q : ℚ) (d : Nat) : String :=
  (if q < 0 then "-" else "")
    ++ toString (cents q d / 100) ++ "." ++ pad2 (cents q d % 100)

/-- Embedding of Python `f-string` formatting `:.2f` on a rational itself. -/
def fmt2 (q : ℚ) : String := fmtDiv q 1

/-- Groups of at most three digits, taken from a reversed digit list. -/
def chunk3 : List Char → List (List Char)
  | [] => []
  | [a] => [[a]]
  | [a, b] => [[a, b]]
  | a :: b :: c :: rest => [a, b, c] :: chunk3 rest

/-- Decimal digits of `n` with thousands separators, as produced by the `,`
format flag. -/
def group3 (n : Nat) : String :=
  let ds := (toString n).data
  String.mk (List.intercalate [','] (((chunk3 ds.reverse).map List.reverse).reverse))

/-- Embedding of `:,.2f` formatting: like `fmt2` but with thousands grouping
on the integer part. -/
def commaFmt2 (q : ℚ) : String :=
  (if q < 0 then "-" else "")
    ++ group3 (cents q 1 / 100) ++ "." ++ pad2 (cents q 1 % 100)

/-- Embedding of `money(n)` (metiger_bot.py lines 46-51): em-dash for `None`,
then top-down B/M/K abbreviation (each branch formatting `n / threshold` at
two decimals), else grouped 2-decimal dollars. -/
def money (n : Option ℚ) : String :=
  match n with
  | none => "—"
  | some n =>
    if n ≥ 1000000000 then "$" ++ fmtDiv n 1000000000 ++ "B"
    else if n ≥ 1000000 then "$" ++ fmtDiv n 1000000 ++ "M"
    else if n ≥ 1000 then "$" ++ fmtDiv n 1000 ++ "K"
    else "$" ++ commaFmt2 n

/-- Python's builtin `abs` on a number. -/
def pyAbs (q : ℚ) : ℚ := if q < 0 then -q else q

/-- Embedding of `arrow(p)` (metiger_bot.py lines 53-55): em-dash for `None`,
else a direction glyph chosen by `p >= 0` followed by `abs(p)` at two
decimals and a percent sign. -/
def arrow (p : Option ℚ) : String :=
  match p with
  | none => "—"
  | some p => (if p ≥ 0 then "🔺" else "🔻") ++ fmt2 (pyAbs p) ++ "%"

/-- Oracle for the single outcome of the `requests.get` + `raise_for_status`
+ `r.json()` interaction inside `fetch_markets`: a timeout, an HTTP status
error, some other failure (connection error or JSON parse error, carrying
its original message), or a successfully parsed payload. -/
inductive Upstream where
  | timeout
  | httpError (status : Nat)
  | otherFailure (msg : String)
  | success (payload : List Coin)
deriving DecidableEq, Repr

/-- Python truthiness of the value returned by `get_cached`: `None` and the
empty list are falsy. -/
def pyTruthy (c : Option (List Coin)) : Bool :=
  match c with
  | none => false
  | some l => !l.isEmpty

/-- Embedding of `fetch_markets(ids)` (metiger_bot.py lines 57-87).  Returns
the result (`Except` models raised exceptions), the new cache state, and
whether a network request was issued.  The guard is Python's `if cached:`,
hence truthiness, not mere presence. -/
def fetch_markets (st : BotState) (now : ℚ) (up : Upstream) :
    Except String (List Coin) × BotState × Bool :=
  let cached := get_cached st now "markets"
  if pyTruthy cached then (Except.ok (cached.getD []), st, false)
  else
    match up with
    | Upstream.timeout => (Except.error "API timeout - try again in a moment", st, true)
    | Upstream.httpError s =>
        if s = 429 then (Except.error "Rate limited - wait a minute", st, true)
        else (Except.error "API error", st, true)
    | Upstream.otherFailure m => (Except.error m, st, true)
    | Upstream.success payload =>
        (Except.ok payload, set_cache st now "markets" payload, true)

/-- Sort key of the gains view, `x.get("price_change_percentage_24h") or -999`
(metiger_bot.py line 170).  Python `or` falls through on every falsy value,
so a missing value AND a value of exactly `0.0` both become `-999`. -/
def gainsKey (c : Coin) : ℚ :=
  match c.price_change_percentage_24h with
  | none => -999
  | some p => if p = 0 then -999 else p

/-- Sort key of the market-cap view, `x.get("market_cap") or 0`
(metiger_bot.py line 160): missing (and zero) market caps become `0`. -/
def mcKey (c : Coin) : ℚ :=
  match c.market_cap with
  | none => 0
  | some m => if m = 0 then 0 else m

/-- Ordering used to model `sorted(rows, key=gainsKey, reverse=True)`: the
stable descending comparison. -/
def gainsLE (a b : Coin) : Prop := gainsKey b ≤ gainsKey a

/-- Ordering used to model `sorted(rows, key=mcKey, reverse=True)`. -/
def mcLE (a b : Coin) : Prop := mcKey b ≤ mcKey a

instance : DecidableRel gainsLE :=
  fun a b => inferInstanceAs (Decidable (gainsKey b ≤ gainsKey a))

instance : DecidableRel mcLE :=
  fun a b => inferInstanceAs (Decidable (mcKey b ≤ mcKey a))

instance : IsTotal Coin gainsLE := ⟨fun a b => le_total (gainsKey b) (gainsKey a)⟩

instance : IsTrans Coin gainsLE := ⟨fun _ _ _ h1 h2 => le_trans h2 h1⟩

instance : IsTotal Coin mcLE := ⟨fun a b => le_total (mcKey b) (mcKey a)⟩

instance : IsTrans Coin mcLE := ⟨fun _ _ _ h1 h2 => le_trans h2 h1⟩

/-- Row order of the gains view, `sorted(rows, key=..., reverse=True)`
(metiger_bot.py line 170).  Python `sorted` is the stable sort by the key in
descending order; `List.insertionSort` with `gainsLE` is exactly that stable
sort. -/
def gains_rows (rows : List Coin) : List Coin := rows.insertionSort gainsLE

/-- Row order of the market-cap view (metiger_bot.py line 160), the stable
descending sort by `mcKey`. -/
def mc_rows (rows : List Coin) : List Coin := rows.insertionSort mcLE

/-- Python `str.ljust`-style padding produced by the `:<4` format flag. -/
def ljust4 (s : String) : String :=
  s ++ String.mk (List.replicate (4 - s.length) ' ')

/-- Python `str.rjust(w)` / the `:>w` format flag. -/
def rjust (w : Nat) (s : String) : String :=
  String.mk (List.replicate (w - s.length) ' ') ++ s

/-- Embedding of `table(rows)` (metiger_bot.py lines 89-97). -/
def table (rows : List Coin) : String :=
  String.intercalate "\n" ("`COIN   PRICE        24h     MCAP`" ::
    rows.map (fun c =>
      "`" ++ ljust4 c.symbol.toUpper ++ " " ++ "$" ++ rjust 10 (commaFmt2 c.current_price)
        ++ "  " ++ rjust 8 (arrow c.price_change_percentage_24h)
        ++ "  " ++ rjust 8 (money c.market_cap) ++ "`"))

/-- The inline keyboard attached to a reply: `main_kb()` (the home grid) or
`charts_kb()` (chart links plus Back). -/
inductive Keyboard where
  | main_kb
  | charts_kb
deriving DecidableEq, Repr

/-- The message edit performed by `on_button`: new text plus attached
keyboard. -/
structure Reply where
  text : String
  keyboard : Keyboard
deriving DecidableEq, Repr

/-- Characters removed by Python `str.strip()` (ASCII whitespace). -/
def pyIsSpace (c : Char) : Bool :=
  c == ' ' || c == '\t' || c == '\n' || c == '\r' || c == '\x0b' || c == '\x0c'

/-- List-level two-sided strip: drop leading whitespace, then trailing. -/
def stripList (l : List Char) : List Char :=
  ((l.dropWhile pyIsSpace).reverse.dropWhile pyIsSpace).reverse

/-- Embedding of Python `str.strip()` with no argument. -/
def pyStrip (s : String) : String :=
  String.mk (stripList s.data)

/-- Static text of the `helpbtn` branch (metiger_bot.py lines 184-192). -/
def helpbtnText : String :=
  "🤖 *Crypto Price Bot*\n\nLive crypto prices from CoinGecko.\n\n*Features:*\n- 💹 Price: Current prices\n- 💰 MC: Market capitalizations\n- 📈 Gains: 24h movers\n- 📊 Charts: TradingView charts"

/-- Text of the market-cap view (metiger_bot.py lines 161-164): header plus
one line per coin of the sorted rows. -/
def mcText (rows : List Coin) : String :=
  "🦁 *Market Caps*\n\n" ++ String.intercalate "\n"
    ((mc_rows rows).map (fun r =>
      "`" ++ ljust4 r.symbol.toUpper ++ "   " ++ money r.market_cap ++ "`"))

/-- Text of the gains view (metiger_bot.py lines 171-174): header plus one
line per coin of the rows sorted by `gainsKey`. -/
def gainsText (rows : List Coin) : String :=
  "📈 *24h Top Movers*\n\n" ++ String.intercalate "\n"
    ((gains_rows rows).map (fun r =>
      "`" ++ ljust4 r.symbol.toUpper ++ "   " ++ arrow r.price_change_percentage_24h ++ "`"))

/-- Embedding of the `on_button` handler (metiger_bot.py lines 142-204).
`callback_data` is `q.data` (possibly `None`); the handler computes
`(q.data or "").strip()` and branches on it.  Fetch-path exceptions are
caught and rendered as a warning message with the home keyboard.  Returns
the reply, the new cache state, and whether a network request was issued. -/
def on_button (callback_data : Option String) (st : BotState) (now : ℚ) (up : Upstream) :
    Reply × BotState × Bool :=
  let data := pyStrip (callback_data.getD "")
  if data = "price" ∨ data = "refresh" then
    match fetch_markets st now up with
    | (Except.ok rows, st2, net) =>
        ({ text := "💰 *Live Prices (USD)*\n\n" ++ table rows, keyboard := Keyboard.main_kb },
          st2, net)
    | (Except.error e, st2, net) =>
        ({ text := "⚠️ " ++ e, keyboard := Keyboard.main_kb }, st2, net)
  else if data = "mc" then
    match fetch_markets st now up with
    | (Except.ok rows, st2, net) =>
        ({ text := mcText rows, keyboard := Keyboard.main_kb }, st2, net)
    | (Except.error e, st2, net) =>
        ({ text := "⚠️ " ++ e, keyboard := Keyboard.main_kb }, st2, net)
  else if data = "gains" then
    match fetch_markets st now up with
    | (Except.ok rows, st2, net) =>
        ({ text := gainsText rows, keyboard := Keyboard.main_kb }, st2, net)
    | (Except.error e, st2, net) =>
        ({ text := "⚠️ " ++ e, keyboard := Keyboard.main_kb }, st2, net)
  else if data = "charts" then
    ({ text := "📊 Choose a chart:", keyboard := Keyboard.charts_kb }, st, false)
  else if data = "back" then
    ({ text := "🤖 Crypto Price Bot:", keyboard := Keyboard.main_kb }, st, false)
  else if data = "helpbtn" then
    ({ text := helpbtnText, keyboard := Keyboard.main_kb }, st, false)
  else
    ({ text := "Unknown command: " ++ data, keyboard := Keyboard.main_kb }, st, false)

/-- A coin whose 24-hour percent change is absent, for concrete instances. -/
def cexA : Coin :=
  { symbol := "AAA", current_price := 1, price_change_percentage_24h := none, market_cap := none }

/-- A coin whose 24-hour percent change is present and exactly zero. -/
def cexB : Coin :=
  { symbol := "BBB", current_price := 1, price_change_percentage_24h := some 0, market_cap := none }

/-- A concrete cache state holding an entry under the fixed key, stored at
time 5, for concrete instances. -/
def wState : BotState :=
  { cache := [("markets", [])], cache_time := [("markets", 5)] }

theorem cents_eval (q : ℚ) (d k : Nat) (hd : 0 < d) (hq : 0 ≤ q)
    (h : q * 100 = (k : ℚ) * (d : ℚ)) : cents q d = k := by
  have hden : (q.den : ℚ) ≠ 0 := by
    exact_mod_cast q.den_nz
  have hqd : q * (q.den : ℚ) = (q.num : ℚ) := by
    calc q * (q.den : ℚ) = ((q.num : ℚ) / (q.den : ℚ)) * (q.den : ℚ) := by
          rw [Rat.num_div_den q]
      _ = (q.num : ℚ) := div_mul_cancel₀ _ hden
  have hZ : (100 : ℤ) * q.num = (k : ℤ) * d * q.den := by
    have hQ : (100 : ℚ) * (q.num : ℚ) = (k : ℚ) * d * q.den := by
      calc (100 : ℚ) * (q.num : ℚ) = 100 * (q * q.den) := by rw [hqd]
        _ = q * 100 * q.den := by ring
        _ = (k : ℚ) * d * q.den := by rw [h]
    exact_mod_cast hQ
  have hnum0 : 0 ≤ q.num := Rat.num_nonneg.mpr hq
  have hN : 100 * q.num.natAbs = k * d * q.den := by
    have h2 := congrArg Int.natAbs hZ
    simpa [Int.natAbs_mul, Int.natAbs_of_nonneg hnum0] using h2
  have hm : 0 < q.den * d := Nat.mul_pos q.pos hd
  unfold cents
  have hnumerator : 200 * q.num.natAbs + q.den * d = (q.den * d) * (2 * k + 1) := by
    have h200 : 200 * q.num.natAbs = 2 * (100 * q.num.natAbs) := by ring
    rw [h200, hN]; ring
  rw [hnumerator, show 2 * (q.den * d) = (q.den * d) * 2 by ring,
    Nat.mul_div_mul_left (2 * k + 1) 2 hm]
  omega

theorem fmtDiv_eval (q : ℚ) (d i f : Nat) (hd : 0 < d) (hf : f < 100) (hq : 0 ≤ q)
    (h : q * 100 = ((100 * i + f : Nat) : ℚ) * (d : ℚ)) :
    fmtDiv q d = toString i ++ "." ++ pad2 f := by
  have hc : cents q d = 100 * i + f := cents_eval q d (100 * i + f) hd hq h
  have h1 : (100 * i + f) / 100 = i := by omega
  have h2 : (100 * i + f) % 100 = f := by omega
  rw [fmtDiv, hc, h1, h2, if_neg (not_lt.mpr hq)]
  rfl

theorem fmt2_eval (q : ℚ) (i f : Nat) (hf : f < 100) (hq : 0 ≤ q)
    (h : q * 100 = ((100 * i + f : Nat) : ℚ)) :
    fmt2 q = toString i ++ "." ++ pad2 f := by
  rw [fmt2]
  exact fmtDiv_eval q 1 i f one_pos hf hq (by push_cast [h]; ring)

theorem commaFmt2_eval (q : ℚ) (i f : Nat) (hf : f < 100) (hq : 0 ≤ q)
    (h : q * 100 = ((100 * i + f : Nat) : ℚ)) :
    commaFmt2 q = group3 i ++ "." ++ pad2 f := by
  have hc : cents q 1 = 100 * i + f :=
    cents_eval q 1 (100 * i + f) one_pos hq (by push_cast [h]; ring)
  have h1 : (100 * i + f) / 100 = i := by omega
  have h2 : (100 * i + f) % 100 = f := by omega
  rw [commaFmt2, hc, h1, h2, if_neg (not_lt.mpr hq)]
  rfl

theorem dictGet_dictSet {α : Type} (d : List (String × α)) (k : String) (v : α) :
    dictGet (dictSet d k v) k = some v := by
  induction d with
  | nil => simp [dictGet, dictSet]
  | cons p rest ih =>
    obtain ⟨k0, v0⟩ := p
    by_cases hk : k0 = k
    · simp [dictGet, dictSet, hk]
    · simp [dictGet, dictSet, hk, ih]

theorem dropWhile_dropWhile_self (p : Char → Bool) (l : List Char) :
    (l.dropWhile p).dropWhile p = l.dropWhile p := by
  induction l with
  | nil => rfl
  | cons a t ih =>
    by_cases h : p a
    · simp [List.dropWhile_cons, h, ih]
    · simp [List.dropWhile_cons, h]

theorem dropWhile_head_not (p : Char → Bool) :
    ∀ (l : List Char) (a : Char) (t : List Char), l.dropWhile p = a :: t → p a = false := by
  intro l
  induction l with
  | nil => intro a t h; simp [List.dropWhile] at h
  | cons b l2 ih =>
    intro a t h
    by_cases hb : p b
    · simp only [List.dropWhile_cons, if_pos hb] at h
      exact ih a t h
    · simp only [List.dropWhile_cons, if_neg hb] at h
      injection h with h1 h2
      subst h1
      simpa using hb

theorem stripList_idem (l : List Char) : stripList (stripList l) = stripList l := by
  unfold stripList
  set L := l.dropWhile pyIsSpace with hL
  set R := (L.reverse.dropWhile pyIsSpace).reverse with hR
  have hsplit : L = R ++ (L.reverse.takeWhile pyIsSpace).reverse := by
    have h1 := List.takeWhile_append_dropWhile pyIsSpace L.reverse
    have h2 := congrArg List.reverse h1
    rw [List.reverse_append, List.reverse_reverse] at h2
    exact h2.symm
  have hRdrop : R.dropWhile pyIsSpace = R := by
    cases hR2 : R with
    | nil => rfl
    | cons a t =>
      have hLa : l.dropWhile pyIsSpace = a :: (t ++ (L.reverse.takeWhile pyIsSpace).reverse) := by
        calc l.dropWhile pyIsSpace = L := hL.symm
          _ = R ++ (L.reverse.takeWhile pyIsSpace).reverse := hsplit
          _ = (a :: t) ++ (L.reverse.takeWhile pyIsSpace).reverse := by rw [hR2]
          _ = a :: (t ++ (L.reverse.takeWhile pyIsSpace).reverse) := rfl
      have ha := dropWhile_head_not pyIsSpace l a _ hLa
      simp [List.dropWhile_cons, ha]
  rw [hRdrop]
  have hRrev : R.reverse = L.reverse.dropWhile pyIsSpace := by
    rw [hR, List.reverse_reverse]
  rw [hRrev, dropWhile_dropWhile_self, ← hRrev]
  exact List.reverse_reverse R

theorem pyStrip_idem (s : String) : pyStrip (pyStrip s) = pyStrip s := by
  simp only [pyStrip]
  exact congrArg String.mk (stripList_idem s.data)

/-- C1 (amended): the gains view renders coins in non-increasing order of the
sentinel key `gainsKey` (the 24h percent change when present and nonzero,
else `-999`, because Python's `or` treats `0.0` as falsy); the rendered rows
are a permutation of the fetched dataset; and after any absent-value coin,
every later present value is either exactly `0` or at most `-999`. -/
theorem gains_view_order (rows : List Coin) :
    List.Pairwise (fun a b => gainsKey b ≤ gainsKey a) (gains_rows rows)
  ∧ (gains_rows rows).Perm rows
  ∧ List.Pairwise (fun a b => a.price_change_percentage_24h = none →
      ∀ p, b.price_change_percentage_24h = some p → p = 0 ∨ p ≤ -999) (gains_rows rows) := by
  have hs : List.Pairwise gainsLE (gains_rows rows) := List.sorted_insertionSort gainsLE rows
  refine ⟨hs, List.perm_insertionSort gainsLE rows, ?_⟩
  refine hs.imp ?_
  intro a b hab
  intro ha p hp
  have hab2 : gainsKey b ≤ gainsKey a := hab
  have hka : gainsKey a = -999 := by simp [gainsKey, ha]
  have hkb : gainsKey b = if p = 0 then -999 else p := by simp [gainsKey, hp]
  by_cases hp0 : p = 0
  · exact Or.inl hp0
  · right
    rw [hkb, if_neg hp0, hka] at hab2
    exact hab2

/-- C1 counterexample: a coin with a present percent change of exactly `0`
does NOT sort before a coin with an absent percent change: on the dataset
`[cexA (absent), cexB (present 0)]` the gains view keeps the absent-value
coin first, refuting the claim that every present value (including exactly
0) sorts before every absent value. -/
theorem gains_zero_percent_counterexample :
    cexA.price_change_percentage_24h = none
  ∧ cexB.price_change_percentage_24h = some 0
  ∧ gains_rows [cexA, cexB] = [cexA, cexB]
  ∧ ¬ List.Pairwise (fun a b => a.price_change_percentage_24h = none →
        b.price_change_percentage_24h = none) (gains_rows [cexA, cexB]) := by
  refine ⟨rfl, rfl, by decide, ?_⟩
  intro h
  rw [show gains_rows [cexA, cexB] = [cexA, cexB] from by decide] at h
  have h2 := (List.pairwise_cons.mp h).1 cexB (by simp)
  have h3 := h2 rfl
  simp [cexB] at h3

/-- C2 (amended): after a first request whose fetch issued a network call and
succeeded with payload at time t1, the cache holds exactly that payload
stamped t1, and a second request at time t2 with t2 - t1 < 60 returns the
cached payload without issuing a new upstream call — provided the payload is
non-empty (an empty list is falsy under the `if cached:` guard). -/
theorem cache_hit_within_ttl (st0 : BotState) (t1 t2 : ℚ) (payload : List Coin) (up2 : Upstream)
    (hne : payload ≠ []) (hfresh : t2 - t1 < 60) :
    ((fetch_markets st0 t1 (Upstream.success payload)).2.2 = true →
      (fetch_markets st0 t1 (Upstream.success payload)).2.1 = set_cache st0 t1 "markets" payload
        ∧ (fetch_markets st0 t1 (Upstream.success payload)).1 = Except.ok payload)
  ∧ fetch_markets (set_cache st0 t1 "markets" payload) t2 up2
      = (Except.ok payload, set_cache st0 t1 "markets" payload, false) := by
  constructor
  · intro hnet
    by_cases hc : pyTruthy (get_cached st0 t1 "markets" 60)
    · simp [fetch_markets, hc] at hnet
    · simp [fetch_markets, hc]
  · have hget : get_cached (set_cache st0 t1 "markets" payload) t2 "markets" 60 = some payload := by
      simp [get_cached, set_cache, dictGet_dictSet]
      exact hfresh
    simp [fetch_markets, hget, pyTruthy, hne]

/-- C2 witness: concrete instance of `cache_hit_within_ttl` at t1 = 0,
t2 = 1, a one-element payload, and an upstream that would time out. -/
theorem cache_hit_within_ttl_witness :
    fetch_markets (set_cache emptyState 0 "markets" [cexA]) 1 Upstream.timeout
      = (Except.ok [cexA], set_cache emptyState 0 "markets" [cexA], false) :=
  (cache_hit_within_ttl emptyState 0 1 [cexA] Upstream.timeout (by decide) (by norm_num)).2

/-- C2 counterexample: a successful fetch that returned the EMPTY payload at
time 0 is cached, yet a second request at time 1 (well inside the 60-second
window) still issues a new upstream call, because `if cached:` is falsy on
an empty list.  This refutes the claim for the empty-sequence payload. -/
theorem cache_empty_payload_refetch :
    (fetch_markets emptyState 0 (Upstream.success [])).1 = Except.ok []
  ∧ (fetch_markets emptyState 0 (Upstream.success [])).2.2 = true
  ∧ (1 : ℚ) - 0 < 60
  ∧ (fetch_markets (fetch_markets emptyState 0 (Upstream.success [])).2.1 1
      (Upstream.success [])).2.2 = true := by
  refine ⟨rfl, rfl, by norm_num, ?_⟩
  norm_num [fetch_markets, get_cached, set_cache, dictGet, dictSet, pyTruthy, emptyState]

/-- C3 (amended): on a cache miss the fetch path classifies failures as
follows — an upstream timeout raises "API timeout - try again in a moment";
HTTP status 429 raises "Rate limited - wait a minute"; every other HTTP
status failure raises the generic "API error"; but any other failure
(connection or response-parse error) is re-raised unchanged with its
original message, not converted to "API error". -/
theorem fetch_error_classification (st : BotState) (now : ℚ)
    (hmiss : pyTruthy (get_cached st now "markets" 60) = false) :
    ((fetch_markets st now Upstream.timeout).1
        = Except.error "API timeout - try again in a moment")
  ∧ ((fetch_markets st now (Upstream.httpError 429)).1
        = Except.error "Rate limited - wait a minute")
  ∧ (∀ s, s ≠ 429 → (fetch_markets st now (Upstream.httpError s)).1
        = Except.error "API error")
  ∧ (∀ m, (fetch_markets st now (Upstream.otherFailure m)).1 = Except.error m) := by
  refine ⟨?_, ?_, ?_, ?_⟩
  · simp [fetch_markets, hmiss]
  · simp [fetch_markets, hmiss]
  · intro s hs
    simp [fetch_markets, hmiss, hs]
  · intro m
    simp [fetch_markets, hmiss]

/-- C3 witness: concrete instance of `fetch_error_classification` on the
empty cache at time 5, for the timeout and the HTTP 500 cases. -/
theorem fetch_error_classification_witness :
    (fetch_markets emptyState 5 Upstream.timeout).1
      = Except.error "API timeout - try again in a moment"
  ∧ (fetch_markets emptyState 5 (Upstream.httpError 500)).1 = Except.error "API error" := by
  have h := fetch_error_classification emptyState 5 (by decide)
  exact ⟨h.1, h.2.2.1 500 (by decide)⟩

/-- C3 counterexample: a response-parse failure is re-raised with its own
message, which is not the generic "API error" message the claim requires. -/
theorem parse_error_not_api_error :
    (fetch_markets emptyState 0 (Upstream.otherFailure "Expecting value")).1
      = Except.error "Expecting value"
  ∧ "Expecting value" ≠ "API error" := ⟨rfl, by decide⟩

/-- C4: `get_cached` returns the stored payload exactly when an entry exists
and `now - fetched_at < ttl` (strict), returns `None` otherwise, and a
missing key always yields `None`; it is a pure function, so no mutation and
no implicit fetch occur. -/
theorem get_cached_spec (st : BotState) (now ttl t : ℚ) (key : String) (v : List Coin) :
    (dictGet st.cache key = some v → dictGet st.cache_time key = some t →
      get_cached st now key ttl = if now - t < ttl then some v else none)
  ∧ (dictGet st.cache key = none → get_cached st now key ttl = none) := by
  constructor
  · intro h1 h2
    simp [get_cached, h1, h2]
  · intro h1
    simp [get_cached, h1]

/-- C4 witness: concrete instance of `get_cached_spec` on a state holding an
entry stored at time 5, queried at time 10 with ttl 60. -/
theorem get_cached_spec_witness :
    get_cached wState 10 "markets" 60 = if (10 : ℚ) - 5 < 60 then some [] else none :=
  (get_cached_spec wState 10 60 5 "markets" []).1 (by decide) (by decide)

/-- C5: the fetch path leaves the cache state (both dicts, all keys) exactly
unchanged whenever it raises an error, and also whenever no network call was
issued; the only mutation is `set_cache` of the fetched payload on a
successful network fetch. -/
theorem fetch_markets_mutates_only_on_success (st : BotState) (now : ℚ) (up : Upstream) :
    (∀ e, (fetch_markets st now up).1 = Except.error e → (fetch_markets st now up).2.1 = st)
  ∧ ((fetch_markets st now up).2.2 = false → (fetch_markets st now up).2.1 = st)
  ∧ (∀ payload, (fetch_markets st now up).2.2 = true →
      (fetch_markets st now up).1 = Except.ok payload →
      (fetch_markets st now up).2.1 = set_cache st now "markets" payload) := by
  refine ⟨?_, ?_, ?_⟩
  · intro e he
    by_cases hc : pyTruthy (get_cached st now "markets" 60)
    · simp [fetch_markets, hc] at he
    · rcases up with _ | s | m | payload
      · simp [fetch_markets, hc]
      · simp [fetch_markets, hc, apply_ite]
      · simp [fetch_markets, hc]
      · simp [fetch_markets, hc] at he
  · intro hnet
    by_cases hc : pyTruthy (get_cached st now "markets" 60)
    · simp [fetch_markets, hc]
    · rcases up with _ | s | m | payload <;> simp [fetch_markets, hc, apply_ite] at hnet
  · intro payload hnet hok
    by_cases hc : pyTruthy (get_cached st now "markets" 60)
    · simp [fetch_markets, hc] at hnet
    · rcases up with _ | s | m | p2
      · simp [fetch_markets, hc] at hok
      · by_cases hs : s = 429 <;> simp [fetch_markets, hc, hs] at hok
      · simp [fetch_markets, hc] at hok
      · simp [fetch_markets, hc] at hok ⊢
        rw [hok]

/-- C5 witness: concrete instance of `fetch_markets_mutates_only_on_success`
at the empty state with a timing-out upstream. -/
theorem fetch_markets_mutates_only_on_success_witness :
    (fetch_markets emptyState 0 Upstream.timeout).2.1 = emptyState :=
  (fetch_markets_mutates_only_on_success emptyState 0 Upstream.timeout).1
    "API timeout - try again in a moment" rfl

/-- C6: any stripped button identifier outside the recognized set
{price, refresh, mc, gains, charts, back, helpbtn} produces the reply
"Unknown command: " followed by the identifier, with the home keyboard
attached, the cache unchanged, and no network call (the dispatcher itself is
a total function, so every identifier maps to exactly one action). -/
theorem unknown_identifier_fallback (d : String) (st : BotState) (now : ℚ) (up : Upstream)
    (hstrip : pyStrip d = d)
    (hmem : d ∉ (["price", "refresh", "mc", "gains", "charts", "back", "helpbtn"] : List String)) :
    on_button (some d) st now up
      = ({ text := "Unknown command: " ++ d, keyboard := Keyboard.main_kb }, st, false) := by
  simp only [List.mem_cons, List.not_mem_nil, or_false, not_or] at hmem
  obtain ⟨h1, h2, h3, h4, h5, h6, h7⟩ := hmem
  simp [on_button, hstrip, h1, h2, h3, h4, h5, h6, h7]

/-- C6 witness: the unrecognized identifier "xyz" echoes back
"Unknown command: xyz" with the home keyboard. -/
theorem unknown_identifier_fallback_witness :
    on_button (some "xyz") emptyState 0 Upstream.timeout
      = ({ text := "Unknown command: xyz", keyboard := Keyboard.main_kb }, emptyState, false) :=
  unknown_identifier_fallback "xyz" emptyState 0 Upstream.timeout (by decide) (by decide)

/-- C7: the money formatter satisfies the threshold table — 999 renders
"$999.00", 1500 renders "$1.50K", 2500000 renders "$2.50M", 3200000000
renders "$3.20B", an absent value renders the placeholder dash — and the
boundary values 1e3/1e6/1e9 take the K/M/B branches respectively, showing
the thresholds are evaluated top-down with 2-decimal precision. -/
theorem money_thresholds :
    money (some 999) = "$999.00"
  ∧ money (some 1500) = "$1.50K"
  ∧ money (some 2500000) = "$2.50M"
  ∧ money (some 3200000000) = "$3.20B"
  ∧ money none = "—"
  ∧ money (some 1000) = "$1.00K"
  ∧ money (some 1000000) = "$1.00M"
  ∧ money (some 1000000000) = "$1.00B" := by
  refine ⟨?_, ?_, ?_, ?_, rfl, ?_, ?_, ?_⟩
  · rw [money, if_neg (by norm_num), if_neg (by norm_num), if_neg (by norm_num),
      commaFmt2_eval 999 999 0 (by norm_num) (by norm_num) (by push_cast; norm_num)]
    rfl
  · rw [money, if_neg (by norm_num), if_neg (by norm_num), if_pos (by norm_num),
      fmtDiv_eval 1500 1000 1 50 (by norm_num) (by norm_num) (by norm_num) (by push_cast; norm_num)]
    rfl
  · rw [money, if_neg (by norm_num), if_pos (by norm_num),
      fmtDiv_eval 2500000 1000000 2 50 (by norm_num) (by norm_num) (by norm_num)
        (by push_cast; norm_num)]
    rfl
  · rw [money, if_pos (by norm_num),
      fmtDiv_eval 3200000000 1000000000 3 20 (by norm_num) (by norm_num) (by norm_num)
        (by push_cast; norm_num)]
    rfl
  · rw [money, if_neg (by norm_num), if_neg (by norm_num), if_pos (by norm_num),
      fmtDiv_eval 1000 1000 1 0 (by norm_num) (by norm_num) (by norm_num) (by push_cast; norm_num)]
    rfl
  · rw [money, if_neg (by norm_num), if_pos (by norm_num),
      fmtDiv_eval 1000000 1000000 1 0 (by norm_num) (by norm_num) (by norm_num)
        (by push_cast; norm_num)]
    rfl
  · rw [money, if_pos (by norm_num),
      fmtDiv_eval 1000000000 1000000000 1 0 (by norm_num) (by norm_num) (by norm_num)
        (by push_cast; norm_num)]
    rfl

/-- C8: the percent-change glyph is chosen by sign with zero treated as
non-negative — for every p the formatter renders the upward glyph when
p ≥ 0 and the downward glyph when p < 0, followed by abs(p) at two decimals
and a percent sign; an absent value renders the placeholder dash; in
particular 0 renders "🔺0.00%", 5.23 renders "🔺5.23%", and -3.10 renders
"🔻3.10%". -/
theorem arrow_glyph_by_sign (p : ℚ) :
    arrow none = "—"
  ∧ arrow (some p) = (if p ≥ 0 then "🔺" else "🔻") ++ fmt2 (pyAbs p) ++ "%"
  ∧ arrow (some 0) = "🔺0.00%"
  ∧ arrow (some (523/100)) = "🔺5.23%"
  ∧ arrow (some (-31/10)) = "🔻3.10%" := by
  refine ⟨rfl, rfl, ?_, ?_, ?_⟩
  · rw [arrow, if_pos (by norm_num), show pyAbs 0 = 0 by rw [pyAbs, if_neg (by norm_num)],
      fmt2_eval 0 0 0 (by norm_num) (by norm_num) (by push_cast; norm_num)]
    rfl
  · rw [arrow, if_pos (by norm_num),
      show pyAbs (523/100) = 523/100 by rw [pyAbs, if_neg (by norm_num)],
      fmt2_eval (523/100) 5 23 (by norm_num) (by norm_num) (by push_cast; norm_num)]
    rfl
  · rw [arrow, if_neg (by norm_num),
      show pyAbs (-31/10) = 31/10 by rw [pyAbs, if_pos (by norm_num)]; norm_num,
      fmt2_eval (31/10) 3 10 (by norm_num) (by norm_num) (by push_cast; norm_num)]
    rfl

/-- C9: for every cache state, time, and upstream outcome, dispatching
"refresh" is literally the same computation as dispatching "price": same
fetch-or-cache path, same rendered text and keyboard, same resulting cache
state, and the cache is honored identically. -/
theorem refresh_alias_of_price (st : BotState) (now : ℚ) (up : Upstream) :
    on_button (some "refresh") st now up = on_button (some "price") st now up := rfl

/-- C10: the dispatcher is invariant under surrounding whitespace in the
callback identifier — dispatching s equals dispatching its stripped form, a
missing identifier behaves as the empty string and falls through to the
unknown-command fallback, and in particular "  price " selects the price
view. -/
theorem on_button_strip_invariant (s : String) (st : BotState) (now : ℚ) (up : Upstream) :
    on_button (some s) st now up = on_button (some (pyStrip s)) st now up
  ∧ on_button none st now up = on_button (some "") st now up
  ∧ on_button none st now up
      = ({ text := "Unknown command: ", keyboard := Keyboard.main_kb }, st, false)
  ∧ on_button (some "  price ") st now up = on_button (some "price") st now up := by
  refine ⟨?_, rfl, rfl, rfl⟩
  simp only [on_button, Option.getD_some]
  rw [pyStrip_idem]
